import Mathlib

/-! Verification of the SystemClock library (lsc namespace): the fixed-point
`Instant` time value, its calendar conversions, and the NTP clock-offset
engine.  Definitions are shallow embeddings of the C++ sources
(`Instant.h`, `Instant.cpp`, `NTPTime.cpp`).  C machine integers are
modelled as `Int` with explicit wrapping where a narrowing conversion
occurs in the source; C truncated division and remainder (`/`, `%`) are
modelled by `cdiv`/`cmod` below.  Doubles are idealized as exact
rationals where the source routes values through `double`; every claim
settled through that path is evaluated only at points where IEEE-754
arithmetic is exact.
-/

namespace lsc

/-- C truncated division (round toward zero) for a positive divisor,
as performed by the C `/` operator on signed integers. -/
def cdiv (a b : Int) : Int := if a < 0 then -(-a / b) else a / b

/-- C truncated remainder for a positive divisor, as performed by the C
`%` operator on signed integers. -/
def cmod (a b : Int) : Int := if a < 0 then -(-a % b) else a % b

/-- Conversion of an integer value to `int32_t` (two's-complement wrap),
modelling C narrowing conversions to a signed 32-bit integer. -/
def wrap32 (x : Int) : Int := (x + 2147483648) % 4294967296 - 2147483648

/-- Conversion of an integer value to `uint32_t` (reduction mod 2^32). -/
def wrapU32 (x : Int) : Int := x % 4294967296

/-- `#define POW2_32 4294967296LL` (Instant.h). -/
def POW2_32 : Int := 4294967296

/-- `#define SECS_IN_68_YEARS 2144448000LL` (Instant.h). -/
def SECS_IN_68_YEARS : Int := 2144448000

/-- `#define SECS_IN_DAY 86400` (Instant.h). -/
def SECS_IN_DAY : Int := 86400

/-- `#define IS_LEAP_YEAR(y)` (Instant.h): divisible by 4, except
centuries that are not multiples of 400. -/
def IS_LEAP_YEAR (y : Int) : Bool :=
  (cmod y 400 == 0 || cmod y 100 != 0) && (cmod y 4 == 0)

/-- `const int daysPerMonth[12] = {31,28,31,30,31,30,31,31,30,31,30,31}`
(Instant.h).  An index outside 0..11 reads past the array in C (no
defined value); the model returns 0 there and no settled claim evaluates
such an index. -/
def daysPerMonth (m : Nat) : Int :=
  if m = 0 then 31 else if m = 1 then 28 else if m = 2 then 31
  else if m = 3 then 30 else if m = 4 then 31 else if m = 5 then 30
  else if m = 6 then 31 else if m = 7 then 31 else if m = 8 then 30
  else if m = 9 then 31 else if m = 10 then 30 else if m = 11 then 31
  else 0

/-- `#define MONTH_DAYS(m,y)` (Instant.h): month length for 0-based
month index `m`, with the leap-year adjustment applied to February. -/
def MONTH_DAYS (m : Nat) (y : Int) : Int :=
  if m = 1 then (if IS_LEAP_YEAR y then daysPerMonth m + 1 else daysPerMonth m)
  else daysPerMonth m

/-- `#define DAYS_IN_YEAR(y)` (Instant.h). -/
def DAYS_IN_YEAR (y : Int) : Int := if IS_LEAP_YEAR y then 366 else 365

/-- `#define SECS_IN_YEAR(y)` (Instant.h). -/
def SECS_IN_YEAR (y : Int) : Int := DAYS_IN_YEAR y * SECS_IN_DAY

/-- `#define SECS_IN_MONTH(m,y)` (Instant.h): seconds in the 1-based
month `m` (the macro shifts the index down by one). -/
def SECS_IN_MONTH (m : Nat) (y : Int) : Int := MONTH_DAYS (m - 1) y * SECS_IN_DAY

/-- `struct Time` (Instant.h).  Fields are C `int` (hour, min, sec) and
`uint32_t` (fraction); values are modelled as `Int`. -/
structure Time where
  hour : Int
  min : Int
  sec : Int
  fraction : Int
deriving DecidableEq, Repr

/-- `struct Date` (Instant.h). -/
structure Date where
  month : Int
  day : Int
  year : Int
deriving DecidableEq, Repr

/-- `Time(int h,int m,int s)` (Instant.h line 49): the three-argument
constructor, which compares the hour against 59 rather than 24. -/
def mkTime3 (h m s : Int) : Time :=
  { hour := if h < 59 then (if h ≥ 0 then h else 0) else 59
    sec := if s < 59 then (if s ≥ 0 then s else 0) else 59
    min := if m < 59 then (if m ≥ 0 then m else 0) else 59
    fraction := 0 }

/-- `Time(int h,int m,int s,uint32_t f)` (Instant.h line 50). -/
def mkTime4 (h m s f : Int) : Time :=
  { hour := if h < 24 then (if h ≥ 0 then h else 0) else 23
    sec := if s < 59 then (if s ≥ 0 then s else 0) else 59
    min := if m < 59 then (if m ≥ 0 then m else 0) else 59
    fraction := f }

/-- `Date(int m,int d,int y)` (Instant.h line 60).  The day clamp calls
`MONTH_DAYS(month,year)` with the already 1-based clamped month, so the
array is indexed one month too far (and out of bounds for December). -/
def mkDate (m d y : Int) : Date :=
  let month : Int := if m < 13 then (if m > 0 then m else 1) else 12
  let year : Int := if y ≥ 0 then y else 0
  let day : Int :=
    if d > 0 then
      (if d > MONTH_DAYS month.toNat year then MONTH_DAYS month.toNat year else d)
    else 1
  { month := month, day := day, year := year }

/-- The backward year loop of `Instant::toDate` (Instant.cpp line 138):
while the seconds lie strictly below minus one year of seconds, add
that year of seconds and step the year back. -/
def toDateNegLoop (sysT year : Int) : Int × Int :=
  if h : sysT < -SECS_IN_YEAR year then toDateNegLoop (sysT + SECS_IN_YEAR year) (year - 1)
  else (year, sysT)
termination_by (-sysT).toNat
decreasing_by
  rcases hL : IS_LEAP_YEAR year <;>
    simp only [SECS_IN_YEAR, DAYS_IN_YEAR, SECS_IN_DAY, hL] at h ⊢ <;> omega

/-- The forward year loop of `Instant::toDate` (Instant.cpp line 141):
while at least one year of seconds remains, subtract it and step the
year forward. -/
def toDatePosLoop (sysT year : Int) : Int × Int :=
  if h : SECS_IN_YEAR year ≤ sysT then toDatePosLoop (sysT - SECS_IN_YEAR year) (year + 1)
  else (year, sysT)
termination_by sysT.toNat
decreasing_by
  rcases hL : IS_LEAP_YEAR year <;>
    simp only [SECS_IN_YEAR, DAYS_IN_YEAR, SECS_IN_DAY, hL] at h ⊢ <;> omega

/-- The month loop of `Instant::toDate` (Instant.cpp line 165): subtract
month lengths while the day count covers the current month and the
month index is below 11. -/
def toDateMonthLoop (month : Nat) (days : Int) (y : Int) : Nat × Int :=
  if h : month < 11 ∧ MONTH_DAYS month y ≤ days then
    toDateMonthLoop (month + 1) (days - MONTH_DAYS month y) y
  else (month, days)
termination_by 11 - month
decreasing_by omega

/-- `Instant::toDate(int64_t)` (Instant.cpp lines 131-171).  The cast
of the in-year seconds to `unsigned long` (32-bit on the target) is
modelled by `wrapU32`; the day division is unsigned. -/
def toDate (s : Int) : Date :=
  let yl := if s < 0 then toDateNegLoop s 1899 else toDatePosLoop s 1900
  let secs : Int := wrapU32 (if s < 0 then SECS_IN_YEAR yl.1 + yl.2 else yl.2)
  let days : Int := secs / SECS_IN_DAY
  let ml := toDateMonthLoop 0 days yl.1
  { month := (ml.1 : Int) + 1, day := ml.2 + 1, year := yl.1 }

/-- `Instant::toTime(int64_t)` (Instant.cpp lines 173-188): reduce mod
one day with the C truncated remainder, normalize a negative remainder
by adding one day, then split into hour, minute and second. -/
def toTime (secs : Int) : Time :=
  let s1 := cmod secs SECS_IN_DAY
  let s2 := if s1 < 0 then SECS_IN_DAY + s1 else s1
  { hour := cmod (cdiv s2 3600) 24
    min := cmod (cdiv s2 60) 60
    sec := cmod s2 60
    fraction := 0 }

/-- The backward year loop of `Instant::toInstant` (Instant.cpp line
196): the seconds subtracted for the years strictly between the target
year and 1900, counting down from 1899. -/
def toInstantYearsDown (year target : Int) : Int :=
  if h : target < year then SECS_IN_YEAR year + toInstantYearsDown (year - 1) target
  else 0
termination_by (year - target).toNat
decreasing_by omega

/-- The forward year loop of `Instant::toInstant` (Instant.cpp line
197): the seconds added for the years from 1900 up to but not including
the target year. -/
def toInstantYearsUp (year target : Int) : Int :=
  if h : year < target then SECS_IN_YEAR year + toInstantYearsUp (year + 1) target
  else 0
termination_by (target - year).toNat
decreasing_by omega

/-- The month loop of `Instant::toInstant` (Instant.cpp line 208): the
seconds in the 1-based months from `month` up to but not including the
target month. -/
def toInstantMonths (month target y : Int) : Int :=
  if h : month < target then SECS_IN_MONTH month.toNat y + toInstantMonths (month + 1) target y
  else 0
termination_by (target - month).toNat
decreasing_by omega

/-- A calendar date as the round-trip claim quantifies it: month in
[1, 12], a non-negative year as stored by the Date constructor, and a
day within the length of that month of that year. -/
def ValidDate (d : Date) : Prop :=
  1 ≤ d.month ∧ d.month ≤ 12 ∧ 0 ≤ d.year ∧ 1 ≤ d.day ∧
    d.day ≤ MONTH_DAYS (d.month - 1).toNat d.year

/-- A time of day as the round-trip claim quantifies it: hour in
[0, 23], minute and second in [0, 59], and no sub-second fraction
(the seconds conversion carries none). -/
def ValidTime (t : Time) : Prop :=
  0 ≤ t.hour ∧ t.hour ≤ 23 ∧ 0 ≤ t.min ∧ t.min ≤ 59 ∧ 0 ≤ t.sec ∧ t.sec ≤ 59 ∧
    t.fraction = 0

/-- Seconds in the `n` consecutive years starting at year `c`. -/
def sumYears (c : Int) : Nat → Int
  | 0 => 0
  | n + 1 => SECS_IN_YEAR c + sumYears (c + 1) n

/-- Days in the `k` consecutive months starting at 0-based month `j`
of year `y`. -/
def sumMonthsFrom (y : Int) (j : Nat) : Nat → Int
  | 0 => 0
  | k + 1 => MONTH_DAYS j y + sumMonthsFrom y (j + 1) k

/-- `class Instant` (Instant.h): a signed 64-bit seconds count from the
prime epoch plus an unsigned 32-bit sub-second fraction.  The `int64_t`
and `uint32_t` fields are modelled as `Int`; range facts appear as
hypotheses where they matter. -/
structure Instant where
  sysTime : Int
  fraction : Int
deriving DecidableEq, Repr

/-- `Instant::toInstant(const Date&, const Time&)` (Instant.cpp lines
190-223): accumulate seconds per elapsed year (backward from 1899 for
years before 1900, forward from 1900 otherwise), count the seconds
inside the year up to the given day and time of day, and for pre-epoch
years subtract the complement from the full year instead. -/
def toInstant (d : Date) (t : Time) : Instant :=
  let sysTime : Int :=
    if d.year < 1900 then -(toInstantYearsDown 1899 d.year) else toInstantYearsUp 1900 d.year
  let secsInYearAcc : Int :=
    toInstantMonths 1 d.month d.year + (d.day - 1) * SECS_IN_DAY
      + t.hour * 3600 + t.min * 60 + t.sec
  let yearsComplimentSeconds : Int := SECS_IN_YEAR d.year - secsInYearAcc
  { sysTime := sysTime + (if d.year < 1900 then -yearsComplimentSeconds else secsInYearAcc)
    fraction := 0 }

/-- `Instant::era()` (Instant.h line 117): truncated division by 2^32,
decremented when the truncated remainder is negative; the `int64_t`
result is returned through the `int32_t` return type. -/
def Instant.era (t : Instant) : Int :=
  wrap32 (if cmod t.sysTime POW2_32 < 0
          then cdiv t.sysTime POW2_32 - 1
          else cdiv t.sysTime POW2_32)

/-- `Instant::eraOffset()` (Instant.h line 118): the truncated remainder
is first narrowed to `int32_t`, then 2^32 is added if negative, and the
value is returned through the `uint32_t` return type. -/
def Instant.eraOffset (t : Instant) : Int :=
  let result := wrap32 (cmod t.sysTime POW2_32)
  wrapU32 (if result < 0 then result + POW2_32 else result)

/-- `Instant::initialize(int32_t e,uint32_t o,uint32_t f)` (Instant.h
line 113): seconds are precomputed as `e*POW2_32+o`. -/
def Instant.ofEra (e o f : Int) : Instant :=
  { sysTime := e * POW2_32 + o, fraction := f }

/-- `Instant::operator+=` (Instant.cpp lines 98-107): seconds add, and
the fractions add in a 64-bit accumulator with carry when the sum
reaches 2^32. -/
def Instant.add (a b : Instant) : Instant :=
  let s := a.sysTime + b.sysTime
  let fraction := a.fraction + b.fraction
  if fraction ≥ POW2_32 then
    { sysTime := s + 1, fraction := fraction - POW2_32 }
  else
    { sysTime := s, fraction := fraction }

/-- `Instant::operator-()` (Instant.cpp lines 115-121): the fraction is
negated as `(uint32_t)(POW2_32 - (int64_t)_fraction)` and one second is
borrowed when that result is non-zero. -/
def Instant.neg (a : Instant) : Instant :=
  let f := wrapU32 (POW2_32 - a.fraction)
  let s := -a.sysTime
  if f ≠ 0 then { sysTime := s - 1, fraction := f }
  else { sysTime := s, fraction := f }

/-- `Instant::operator-=` (Instant.h line 200): subtraction adds the
negation. -/
def Instant.sub (a b : Instant) : Instant := a.add b.neg

/-- C truncation of a real value to an integer (round toward zero), as
performed by a C cast of a `double` to an integer type. -/
def truncQ (q : ℚ) : Int := if q < 0 then ⌈q⌉ else ⌊q⌋

/-- `Instant::sysTimed()` (Instant.h line 121): the real-valued view
`seconds + fraction / 2^32`, double precision idealized as ℚ. -/
def Instant.sysTimed (a : Instant) : ℚ :=
  (a.sysTime : ℚ) + (a.fraction : ℚ) / 4294967296

/-- `Instant::initialize(double)` (Instant.cpp lines 46-51), doubles
idealized as ℚ: split off the truncated integer part, scale the
remainder by 2^32 into the `uint32_t` fraction (for a negative input
the C conversion of the negative scaled remainder to `uint32_t` has no
defined value; the model wraps mod 2^32), then decrement the seconds
when the input was negative with a non-zero fraction. -/
def Instant.ofRat (q : ℚ) : Instant :=
  let s := truncQ q
  let diff : ℚ := q - (s : ℚ)
  let f := wrapU32 (truncQ (diff * 4294967296))
  if q < 0 ∧ f > 0 then { sysTime := s - 1, fraction := f }
  else { sysTime := s, fraction := f }

/-- `Instant::operator/(const int)` (Instant.cpp lines 109-113):
division goes through the real-valued view. -/
def Instant.divInt (a : Instant) (denom : Int) : Instant :=
  Instant.ofRat (a.sysTimed / (denom : ℚ))

/-- `Instant::tzOffset(double)` (Instant.cpp lines 84-96), doubles
idealized as ℚ: the whole hour is the input truncated to int, forced to
-14 when the input is at most -14 and to 14 when it is above 14; a
negative remaining fraction snaps to -.75, -.5 or -.25 and a positive
one to .75, .5 or .25; the result `3600*h + 3600*fraction` passes
through the `int32_t` return type.  Every comparison, the subtraction
`hours - h`, and the final products are exact in IEEE-754 double
precision for representable inputs, so the rational model agrees with
the compiled code at every representable input. -/
def tzOffset (hours : ℚ) : Int :=
  let h : Int := if hours ≤ -14 then -14 else if hours > 14 then 14 else truncQ hours
  let fraction : ℚ := hours - (h : ℚ)
  let fraction : ℚ :=
    if fraction < 0 then
      (if fraction ≤ -(3/4 : ℚ) then -(3/4) else if fraction ≤ -(1/2 : ℚ) then -(1/2) else -(1/4))
    else if fraction > 0 then
      (if fraction ≥ (3/4 : ℚ) then (3/4) else if fraction ≥ (1/2 : ℚ) then (1/2) else (1/4))
    else fraction
  wrap32 (truncQ (3600 * (h : ℚ) + 3600 * fraction))

/-- Modelled from the claim text of C7, not from the source: clamp the
hours to [-14, 14], split off the whole hours, truncate the fractional
magnitude down to the next lower multiple of a quarter, reapply the
sign, and return `3600*whole + 3600*snapped`. -/
def tzOffsetClaim (hours : ℚ) : Int :=
  let clamped : ℚ := if hours < -14 then -14 else if hours > 14 then 14 else hours
  let whole : Int := truncQ clamped
  let f : ℚ := clamped - (whole : ℚ)
  let snapped : ℚ :=
    if |f| < 1/4 then 0 else if |f| < 1/2 then 1/4 else if |f| < 3/4 then 1/2 else 3/4
  let signed : ℚ := if f < 0 then -snapped else snapped
  truncQ (3600 * (whole : ℚ) + 3600 * signed)

/-- Amended behaviour of tzOffset for claim C7: only the whole-hour
part is clamped to [-14, 14] (so the remaining fraction can reach
magnitudes up to .75 beyond the clamp), and a non-zero remaining
fraction snaps by magnitude to .75 when at least .75, to .5 when at
least .5, and otherwise up to .25 (fractions strictly between 0 and .25
are not truncated to zero), signed like the fraction. -/
def tzOffsetAmended (hours : ℚ) : Int :=
  let h : Int := if hours ≤ -14 then -14 else if hours > 14 then 14 else truncQ hours
  let f : ℚ := hours - (h : ℚ)
  let mag : Int := if f = 0 then 0 else if |f| ≥ 3/4 then 2700 else if |f| ≥ 1/2 then 1800 else 900
  3600 * h + (if f < 0 then -mag else mag)

/-- Result record of the pure core of `NTPTime::getNTPOffset`: the two
era-resolved server Instants and the returned clock offset. -/
structure NTPOffsetResult where
  T2 : Instant
  T3 : Instant
  clockOffset : Instant
deriving DecidableEq, Repr

/-- `NTPTime::getNTPOffset` (NTPTime.cpp lines 230-315) reduced to its
pure core: from the status and the raw (seconds, fraction) outputs of
`getNTPTimestamp`, and the local Instants T1 and T4, resolve the era of
the server timestamps and compute `((T2-T1)+(T3-T4))/2`.  The values
`T1Era+1` and `T1Era-1` pass through the `int32_t` parameter of
`initialize`, modelled by `wrap32`. -/
def getNTPOffsetCore (status : Int) (T1 T4 : Instant)
    (rcvSecs rcvFraction tsmSecs tsmFraction : Int) : NTPOffsetResult :=
  let T1Era := T1.era
  let T4Era := T4.era
  let T2 : Instant :=
    if status = 1 then
      let rcvDiff := T1.eraOffset - rcvSecs
      if rcvDiff > SECS_IN_68_YEARS then
        Instant.ofEra (wrap32 (T1Era + 1)) rcvSecs rcvFraction
      else if rcvDiff < -SECS_IN_68_YEARS then
        Instant.ofEra (wrap32 (T1Era - 1)) rcvSecs rcvFraction
      else
        Instant.ofEra T1Era rcvSecs rcvFraction
    else T1
  let T3 : Instant :=
    if status = 1 then
      let tsmDiff := T4.eraOffset - tsmSecs
      if tsmDiff > SECS_IN_68_YEARS then
        Instant.ofEra (wrap32 (T4Era + 1)) tsmSecs tsmFraction
      else if tsmDiff < -SECS_IN_68_YEARS then
        Instant.ofEra (wrap32 (T4Era - 1)) tsmSecs tsmFraction
      else
        Instant.ofEra T4Era tsmSecs tsmFraction
    else T4
  { T2 := T2, T3 := T3, clockOffset := ((T2.sub T1).add (T3.sub T4)).divInt 2 }

/-! Era decomposition -/

/-- For any `int64`-representable seconds value, the C expression in
`Instant::era` computes the floor division of the seconds by 2^32. -/
lemma era_eq_fdiv (t : Instant) (h1 : -9223372036854775808 ≤ t.sysTime)
    (h2 : t.sysTime < 9223372036854775808) :
    t.era = t.sysTime / 4294967296 := by
  unfold Instant.era cdiv cmod wrap32 POW2_32
  split_ifs <;> omega

/-- The C expression in `Instant::eraOffset` computes the non-negative
residue of the seconds mod 2^32, for any seconds value. -/
lemma eraOffset_eq_emod (t : Instant) : t.eraOffset = t.sysTime % 4294967296 := by
  unfold Instant.eraOffset cmod wrap32 wrapU32 POW2_32
  dsimp only
  split_ifs <;> omega

/-- `initialize(int32_t,uint32_t,uint32_t)` recovers its era argument
through `era()` when the arguments are in their C type ranges. -/
lemma ofEra_era (e o f : Int) (he1 : -2147483648 ≤ e) (he2 : e < 2147483648)
    (ho1 : 0 ≤ o) (ho2 : o < 4294967296) :
    (Instant.ofEra e o f).era = e := by
  have h := era_eq_fdiv (Instant.ofEra e o f) (by unfold Instant.ofEra POW2_32; dsimp; nlinarith)
    (by unfold Instant.ofEra POW2_32; dsimp; nlinarith)
  rw [h]
  unfold Instant.ofEra POW2_32
  dsimp
  omega

/-- `initialize(int32_t,uint32_t,uint32_t)` recovers its era-offset
argument through `eraOffset()` when the arguments are in range. -/
lemma ofEra_eraOffset (e o f : Int) (ho1 : 0 ≤ o) (ho2 : o < 4294967296) :
    (Instant.ofEra e o f).eraOffset = o := by
  rw [eraOffset_eq_emod]
  unfold Instant.ofEra POW2_32
  dsimp
  omega

/-- Claim C2: for every representable signed 64-bit seconds value held
by an Instant, `era * 2^32 + eraOffset` reconstructs the seconds
exactly, and `eraOffset` lies in [0, 2^32) even for negative seconds. -/
theorem era_invariant (s f : Int) (h1 : -9223372036854775808 ≤ s)
    (h2 : s < 9223372036854775808) :
    (Instant.mk s f).era * 4294967296 + (Instant.mk s f).eraOffset = s ∧
    0 ≤ (Instant.mk s f).eraOffset ∧ (Instant.mk s f).eraOffset < 4294967296 := by
  rw [era_eq_fdiv _ h1 h2, eraOffset_eq_emod]
  dsimp
  omega

/-- Witness for C2 at the seconds value -1 (one second before the prime
epoch): the era is -1 and the era offset is 2^32 - 1. -/
theorem era_invariant_witness :
    (Instant.mk (-1) 0).era * 4294967296 + (Instant.mk (-1) 0).eraOffset = -1 ∧
    0 ≤ (Instant.mk (-1) 0).eraOffset ∧ (Instant.mk (-1) 0).eraOffset < 4294967296 :=
  era_invariant (-1) 0 (by norm_num) (by norm_num)

/-- Claim C10: construction from (era, eraOffset, fraction) and the
accessors `era()`, `eraOffset()`, `fraction()` are mutually inverse over
the full int32 range of the era and uint32 ranges of the offsets. -/
theorem ofEra_roundtrip (e o f : Int) (he1 : -2147483648 ≤ e) (he2 : e < 2147483648)
    (ho1 : 0 ≤ o) (ho2 : o < 4294967296) (hf1 : 0 ≤ f) (hf2 : f < 4294967296) :
    (Instant.ofEra e o f).era = e ∧ (Instant.ofEra e o f).eraOffset = o ∧
    (Instant.ofEra e o f).fraction = f :=
  ⟨ofEra_era e o f he1 he2 ho1 ho2, ofEra_eraOffset e o f ho1 ho2, rfl⟩

/-- Witness for C10 at era -1, offset 4294967295, fraction 7 (the first
second of era -1 from the Instant.h comment). -/
theorem ofEra_roundtrip_witness :
    (Instant.ofEra (-1) 4294967295 7).era = -1 ∧
    (Instant.ofEra (-1) 4294967295 7).eraOffset = 4294967295 ∧
    (Instant.ofEra (-1) 4294967295 7).fraction = 7 :=
  ofEra_roundtrip (-1) 4294967295 7 (by norm_num) (by norm_num) (by norm_num)
    (by norm_num) (by norm_num) (by norm_num)

/-! Addition and negation -/

/-- Claim C5: addition of two Instants sums the seconds fields and sums
the fraction fields with a 64-bit-wide carry: a carry of exactly one
second occurs precisely when the fractions sum to 2^32 or more. -/
theorem add_fraction_carry (a b : Instant) (ha1 : 0 ≤ a.fraction)
    (ha2 : a.fraction < 4294967296) (hb1 : 0 ≤ b.fraction) (hb2 : b.fraction < 4294967296) :
    (4294967296 ≤ a.fraction + b.fraction →
      Instant.add a b =
        Instant.mk (a.sysTime + b.sysTime + 1) (a.fraction + b.fraction - 4294967296)) ∧
    (a.fraction + b.fraction < 4294967296 →
      Instant.add a b = Instant.mk (a.sysTime + b.sysTime) (a.fraction + b.fraction)) := by
  unfold Instant.add POW2_32
  constructor <;> intro h
  · rw [if_pos (by omega)]
  · rw [if_neg (by omega)]

/-- Witness for C5: fractions 4294967295 and 1 sum to exactly 2^32 and
carry one second. -/
theorem add_fraction_carry_witness :
    4294967296 ≤ (Instant.mk 10 4294967295).fraction + (Instant.mk 20 1).fraction ∧
    Instant.add (Instant.mk 10 4294967295) (Instant.mk 20 1) = Instant.mk 31 0 := by
  refine ⟨by norm_num, ?_⟩
  have h := (add_fraction_carry (Instant.mk 10 4294967295) (Instant.mk 20 1)
    (by norm_num) (by norm_num) (by norm_num) (by norm_num)).1 (by norm_num)
  simpa using h

/-- Negating an Instant and adding it back gives the zero Instant, for
any uint32 fraction. -/
lemma add_neg_self (a : Instant) (h1 : 0 ≤ a.fraction) (h2 : a.fraction < 4294967296) :
    Instant.add a (Instant.neg a) = Instant.mk 0 0 := by
  unfold Instant.add Instant.neg wrapU32 POW2_32
  dsimp only
  split_ifs <;> simp_all [Instant.mk.injEq] <;> omega

/-- Claim C6: for every Instant `x`, `x + (-x)` has zero seconds and
zero fraction; the negated fraction is `2^32 - fraction` reduced to
uint32, and the one-second borrow happens exactly when the original
fraction was non-zero. -/
theorem add_neg_identity (x : Instant) (h1 : 0 ≤ x.fraction) (h2 : x.fraction < 4294967296) :
    (Instant.add x (Instant.neg x)).sysTime = 0 ∧
    (Instant.add x (Instant.neg x)).fraction = 0 ∧
    (Instant.neg x).fraction = wrapU32 (4294967296 - x.fraction) ∧
    ((Instant.neg x).sysTime = -x.sysTime - 1 ↔ x.fraction ≠ 0) := by
  have h := add_neg_self x h1 h2
  refine ⟨by rw [h], by rw [h], ?_, ?_⟩
  · unfold Instant.neg wrapU32 POW2_32
    dsimp only
    split_ifs <;> rfl
  · unfold Instant.neg wrapU32 POW2_32
    dsimp only
    split_ifs with hc <;> dsimp only <;> constructor <;> intro hx <;> omega

/-- Narrowing to int32 is the identity on values already in range. -/
lemma wrap32_eq_self (x : Int) (h1 : -2147483648 ≤ x) (h2 : x < 2147483648) :
    wrap32 x = x := by
  unfold wrap32
  omega

/-- The int32 narrowing always lands in the int32 range. -/
lemma wrap32_mem (x : Int) : -2147483648 ≤ wrap32 x ∧ wrap32 x < 2147483648 := by
  unfold wrap32
  omega

/-- Claim C3: on a successful exchange (status 1), the era of each raw
server timestamp is resolved against the matching local era offset:
when the local era offset exceeds the raw server seconds by more than
68 years of seconds the server timestamp receives the local era plus
one, when it falls short by more than 68 years it receives the local
era minus one, and otherwise it receives the local era; in every case
the resolved era offset is the raw server seconds. -/
theorem era_straddle_resolution (T1 T4 : Instant)
    (rcvSecs rcvFraction tsmSecs tsmFraction : Int)
    (hr1 : 0 ≤ rcvSecs) (hr2 : rcvSecs < 4294967296)
    (ht1 : 0 ≤ tsmSecs) (ht2 : tsmSecs < 4294967296)
    (hT1a : -2147483647 ≤ T1.era) (hT1b : T1.era ≤ 2147483646)
    (hT4a : -2147483647 ≤ T4.era) (hT4b : T4.era ≤ 2147483646) :
    (T1.eraOffset - rcvSecs > SECS_IN_68_YEARS →
      (getNTPOffsetCore 1 T1 T4 rcvSecs rcvFraction tsmSecs tsmFraction).T2.era = T1.era + 1 ∧
      (getNTPOffsetCore 1 T1 T4 rcvSecs rcvFraction tsmSecs tsmFraction).T2.eraOffset = rcvSecs) ∧
    (T1.eraOffset - rcvSecs < -SECS_IN_68_YEARS →
      (getNTPOffsetCore 1 T1 T4 rcvSecs rcvFraction tsmSecs tsmFraction).T2.era = T1.era - 1 ∧
      (getNTPOffsetCore 1 T1 T4 rcvSecs rcvFraction tsmSecs tsmFraction).T2.eraOffset = rcvSecs) ∧
    (-SECS_IN_68_YEARS ≤ T1.eraOffset - rcvSecs → T1.eraOffset - rcvSecs ≤ SECS_IN_68_YEARS →
      (getNTPOffsetCore 1 T1 T4 rcvSecs rcvFraction tsmSecs tsmFraction).T2.era = T1.era ∧
      (getNTPOffsetCore 1 T1 T4 rcvSecs rcvFraction tsmSecs tsmFraction).T2.eraOffset = rcvSecs) ∧
    (T4.eraOffset - tsmSecs > SECS_IN_68_YEARS →
      (getNTPOffsetCore 1 T1 T4 rcvSecs rcvFraction tsmSecs tsmFraction).T3.era = T4.era + 1 ∧
      (getNTPOffsetCore 1 T1 T4 rcvSecs rcvFraction tsmSecs tsmFraction).T3.eraOffset = tsmSecs) ∧
    (T4.eraOffset - tsmSecs < -SECS_IN_68_YEARS →
      (getNTPOffsetCore 1 T1 T4 rcvSecs rcvFraction tsmSecs tsmFraction).T3.era = T4.era - 1 ∧
      (getNTPOffsetCore 1 T1 T4 rcvSecs rcvFraction tsmSecs tsmFraction).T3.eraOffset = tsmSecs) ∧
    (-SECS_IN_68_YEARS ≤ T4.eraOffset - tsmSecs → T4.eraOffset - tsmSecs ≤ SECS_IN_68_YEARS →
      (getNTPOffsetCore 1 T1 T4 rcvSecs rcvFraction tsmSecs tsmFraction).T3.era = T4.era ∧
      (getNTPOffsetCore 1 T1 T4 rcvSecs rcvFraction tsmSecs tsmFraction).T3.eraOffset = tsmSecs) := by
  unfold getNTPOffsetCore SECS_IN_68_YEARS
  dsimp only
  rw [if_pos rfl, if_pos rfl]
  refine ⟨fun h => ?_, fun h => ?_, fun ha hb => ?_, fun h => ?_, fun h => ?_, fun ha hb => ?_⟩
  · rw [if_pos h, wrap32_eq_self (T1.era + 1) (by omega) (by omega)]
    exact ⟨ofEra_era _ _ _ (by omega) (by omega) hr1 hr2, ofEra_eraOffset _ _ _ hr1 hr2⟩
  · rw [if_neg (by omega), if_pos h, wrap32_eq_self (T1.era - 1) (by omega) (by omega)]
    exact ⟨ofEra_era _ _ _ (by omega) (by omega) hr1 hr2, ofEra_eraOffset _ _ _ hr1 hr2⟩
  · rw [if_neg (by omega), if_neg (by omega)]
    exact ⟨ofEra_era _ _ _ (by omega) (by omega) hr1 hr2, ofEra_eraOffset _ _ _ hr1 hr2⟩
  · rw [if_pos h, wrap32_eq_self (T4.era + 1) (by omega) (by omega)]
    exact ⟨ofEra_era _ _ _ (by omega) (by omega) ht1 ht2, ofEra_eraOffset _ _ _ ht1 ht2⟩
  · rw [if_neg (by omega), if_pos h, wrap32_eq_self (T4.era - 1) (by omega) (by omega)]
    exact ⟨ofEra_era _ _ _ (by omega) (by omega) ht1 ht2, ofEra_eraOffset _ _ _ ht1 ht2⟩
  · rw [if_neg (by omega), if_neg (by omega)]
    exact ⟨ofEra_era _ _ _ (by omega) (by omega) ht1 ht2, ofEra_eraOffset _ _ _ ht1 ht2⟩

/-- Witness for C3: a local era offset of 2^32 - 1 with a raw server
offset of 0 selects the next era (era 1) for the server timestamp. -/
theorem era_straddle_resolution_witness :
    (Instant.mk 4294967295 0).eraOffset - 0 > SECS_IN_68_YEARS ∧
    (getNTPOffsetCore 1 (Instant.mk 4294967295 0) (Instant.mk 4294967295 0)
        0 0 0 0).T2.era = (Instant.mk 4294967295 0).era + 1 ∧
    (getNTPOffsetCore 1 (Instant.mk 4294967295 0) (Instant.mk 4294967295 0)
        0 0 0 0).T2.eraOffset = 0 :=
  ⟨by decide,
    (era_straddle_resolution (Instant.mk 4294967295 0) (Instant.mk 4294967295 0) 0 0 0 0
      (by norm_num) (by norm_num) (by norm_num) (by norm_num)
      (by decide) (by decide) (by decide) (by decide)).1 (by decide)⟩

/-- Witness for C6 at the Instant with seconds 5 and fraction 7. -/
theorem add_neg_identity_witness :
    (Instant.add (Instant.mk 5 7) (Instant.neg (Instant.mk 5 7))).sysTime = 0 ∧
    (Instant.add (Instant.mk 5 7) (Instant.neg (Instant.mk 5 7))).fraction = 0 ∧
    (Instant.neg (Instant.mk 5 7)).fraction = wrapU32 (4294967296 - (Instant.mk 5 7).fraction) ∧
    ((Instant.neg (Instant.mk 5 7)).sysTime = -(Instant.mk 5 7).sysTime - 1 ↔
      (Instant.mk 5 7).fraction ≠ 0) :=
  add_neg_identity (Instant.mk 5 7) (by norm_num) (by norm_num)

/-- Adding the zero Instant to itself gives the zero Instant. -/
lemma add_zero_zero : Instant.add (Instant.mk 0 0) (Instant.mk 0 0) = Instant.mk 0 0 := by
  unfold Instant.add POW2_32
  norm_num

/-- Scalar division of the zero Instant by 2 gives the zero Instant;
the real-valued path is exact at zero. -/
lemma divInt_zero_two : Instant.divInt (Instant.mk 0 0) 2 = Instant.mk 0 0 := by
  unfold Instant.divInt Instant.ofRat Instant.sysTimed truncQ wrapU32
  norm_num

/-- Claim C4: when the timestamp request reports any non-success
status, getNTPOffset sets T2 equal to T1 and T3 equal to T4, and the
returned clock offset is the Instant with zero seconds and zero
fraction, for all T1, T4 and all raw server values. -/
theorem offset_zero_on_failure (status : Int) (T1 T4 : Instant)
    (rcvSecs rcvFraction tsmSecs tsmFraction : Int) (hs : status ≠ 1)
    (h1 : 0 ≤ T1.fraction) (h2 : T1.fraction < 4294967296)
    (h3 : 0 ≤ T4.fraction) (h4 : T4.fraction < 4294967296) :
    (getNTPOffsetCore status T1 T4 rcvSecs rcvFraction tsmSecs tsmFraction).T2 = T1 ∧
    (getNTPOffsetCore status T1 T4 rcvSecs rcvFraction tsmSecs tsmFraction).T3 = T4 ∧
    (getNTPOffsetCore status T1 T4 rcvSecs rcvFraction tsmSecs tsmFraction).clockOffset =
      Instant.mk 0 0 := by
  unfold getNTPOffsetCore
  dsimp only
  rw [if_neg hs, if_neg hs]
  refine ⟨rfl, rfl, ?_⟩
  unfold Instant.sub
  rw [add_neg_self T1 h1 h2, add_neg_self T4 h3 h4, add_zero_zero, divInt_zero_two]

/-- Witness for C4: a failed exchange (status -3) with non-trivial T1
and T4 still yields T2 = T1, T3 = T4 and a zero clock offset. -/
theorem offset_zero_on_failure_witness :
    (getNTPOffsetCore (-3) (Instant.mk 100 7) (Instant.mk 200 9) 5 6 7 8).T2 =
      Instant.mk 100 7 ∧
    (getNTPOffsetCore (-3) (Instant.mk 100 7) (Instant.mk 200 9) 5 6 7 8).T3 =
      Instant.mk 200 9 ∧
    (getNTPOffsetCore (-3) (Instant.mk 100 7) (Instant.mk 200 9) 5 6 7 8).clockOffset =
      Instant.mk 0 0 :=
  offset_zero_on_failure (-3) (Instant.mk 100 7) (Instant.mk 200 9) 5 6 7 8
    (by norm_num) (by norm_num) (by norm_num) (by norm_num) (by norm_num)

/-! Timezone offset -/

/-- Truncation toward zero is the identity on integers. -/
lemma truncQ_intCast (n : Int) : truncQ (n : ℚ) = n := by
  unfold truncQ
  split <;> simp

/-- Truncation toward zero keeps a value of (-14, 14] inside [-14, 14]. -/
lemma truncQ_bounds {q : ℚ} (h1 : -14 < q) (h2 : q ≤ 14) :
    -14 ≤ truncQ q ∧ truncQ q ≤ 14 := by
  unfold truncQ
  split_ifs with hq
  · constructor
    · have hle := Int.le_ceil q
      have : (-14 : ℚ) < (⌈q⌉ : ℚ) := lt_of_lt_of_le h1 hle
      exact_mod_cast this.le
    · exact Int.ceil_le.mpr (by exact_mod_cast h2)
  · constructor
    · have : (0 : Int) ≤ ⌊q⌋ := Int.floor_nonneg.mpr (not_lt.mp hq)
      omega
    · have hle := Int.floor_le q
      have : (⌊q⌋ : ℚ) ≤ 14 := le_trans hle h2
      exact_mod_cast this

/-- The common final step of tzOffset: when the snapped fraction is a
quarter multiple with integer second count `d`, the double expression
collapses to the exact integer `3600*h + d`, and the int32 return
conversion is the identity on it. -/
lemma tz_result_eq (h d : Int) (c : ℚ) (hc : (d : ℚ) = 3600 * c)
    (hb1 : -14 ≤ h) (hb2 : h ≤ 14) (hd1 : -2700 ≤ d) (hd2 : d ≤ 2700) :
    wrap32 (truncQ (3600 * (h : ℚ) + 3600 * c)) = 3600 * h + d := by
  have he : 3600 * (h : ℚ) + 3600 * c = ((3600 * h + d : Int) : ℚ) := by
    push_cast [← hc]
    ring
  rw [he, truncQ_intCast]
  exact wrap32_eq_self _ (by omega) (by omega)

/-- Counterexample for claim C7: at hours = 5.125 (exactly
representable in double precision) the code returns 18900 seconds
(5.25 hours), while the claimed rule of truncating the fraction
magnitude down to the next lower quarter multiple would return 18000
seconds (5.0 hours). -/
theorem tzOffset_counterexample :
    tzOffset (41/8) = 18900 ∧ tzOffsetClaim (41/8) = 18000 := by
  constructor <;> norm_num [tzOffset, tzOffsetClaim, truncQ, wrap32, abs_of_pos]

/-- Claim C7 (amended): tzOffset clamps only the whole-hour part to
[-14, 14] (truncating toward zero inside that range), and snaps any
non-zero remaining fraction by magnitude to .75, .5 or .25 using
greater-or-equal thresholds (so magnitudes below .25 snap up to .25 and
magnitudes above .75, possible when |hours| > 14, snap down to .75),
reapplying the sign of the fraction; the result is 3600 times the whole
hours plus 3600 times the snapped fraction; in particular
tzOffset(5.6) = 19800. -/
theorem tzOffset_amended_spec :
    (∀ hours : ℚ, tzOffset hours = tzOffsetAmended hours) ∧ tzOffset (28/5) = 19800 := by
  constructor
  · intro hours
    unfold tzOffset tzOffsetAmended
    dsimp only
    set h : Int := if hours ≤ -14 then -14 else if hours > 14 then 14 else truncQ hours with hh
    have hb : -14 ≤ h ∧ h ≤ 14 := by
      rw [hh]
      split_ifs with h1 h2
      · exact ⟨le_refl _, by norm_num⟩
      · exact ⟨by norm_num, le_refl _⟩
      · exact truncQ_bounds (by push_neg at h1; linarith) (by push_neg at h2; linarith)
    set f : ℚ := hours - (h : ℚ) with hf
    simp only [gt_iff_lt, ge_iff_le]
    rcases lt_trichotomy f 0 with hneg | hzero | hpos
    · rw [if_pos hneg, if_pos hneg, if_neg (ne_of_lt hneg), abs_of_neg hneg]
      by_cases h34 : f ≤ -(3/4 : ℚ)
      · rw [if_pos h34, if_pos (by linarith : (3/4 : ℚ) ≤ -f)]
        exact tz_result_eq h (-2700) _ (by norm_num) hb.1 hb.2 (by norm_num) (by norm_num)
      · rw [if_neg h34, if_neg (by intro hc; apply h34; linarith : ¬ (3/4 : ℚ) ≤ -f)]
        by_cases h12 : f ≤ -(1/2 : ℚ)
        · rw [if_pos h12, if_pos (by linarith : (1/2 : ℚ) ≤ -f)]
          exact tz_result_eq h (-1800) _ (by norm_num) hb.1 hb.2 (by norm_num) (by norm_num)
        · rw [if_neg h12, if_neg (by intro hc; apply h12; linarith : ¬ (1/2 : ℚ) ≤ -f)]
          exact tz_result_eq h (-900) _ (by norm_num) hb.1 hb.2 (by norm_num) (by norm_num)
    · rw [if_neg (by rw [hzero]; exact lt_irrefl 0), if_neg (by rw [hzero]; exact lt_irrefl 0),
        if_neg (by rw [hzero]; exact lt_irrefl 0), if_pos hzero, hzero]
      exact tz_result_eq h 0 0 (by norm_num) hb.1 hb.2 (by norm_num) (by norm_num)
    · rw [if_neg (not_lt.mpr hpos.le), if_pos hpos, if_neg (not_lt.mpr hpos.le),
        if_neg (ne_of_gt hpos), abs_of_pos hpos]
      by_cases h34 : (3/4 : ℚ) ≤ f
      · rw [if_pos h34, if_pos h34]
        exact tz_result_eq h 2700 _ (by norm_num) hb.1 hb.2 (by norm_num) (by norm_num)
      · rw [if_neg h34, if_neg h34]
        by_cases h12 : (1/2 : ℚ) ≤ f
        · rw [if_pos h12, if_pos h12]
          exact tz_result_eq h 1800 _ (by norm_num) hb.1 hb.2 (by norm_num) (by norm_num)
        · rw [if_neg h12, if_neg h12]
          exact tz_result_eq h 900 _ (by norm_num) hb.1 hb.2 (by norm_num) (by norm_num)
  · norm_num [tzOffset, truncQ, wrap32]

/-! Calendar round-trip -/

/-- Every year contains a positive number of seconds. -/
lemma SECS_IN_YEAR_pos (y : Int) : 0 < SECS_IN_YEAR y := by
  unfold SECS_IN_YEAR DAYS_IN_YEAR SECS_IN_DAY
  split <;> norm_num

/-- The seconds in a year are the days in the year times 86400. -/
lemma SECS_IN_YEAR_eq (y : Int) : SECS_IN_YEAR y = DAYS_IN_YEAR y * 86400 := rfl

/-- Year lengths in days are 365 or 366. -/
lemma DAYS_IN_YEAR_bounds (y : Int) : 365 ≤ DAYS_IN_YEAR y ∧ DAYS_IN_YEAR y ≤ 366 := by
  unfold DAYS_IN_YEAR
  split <;> norm_num

/-- Raw month-table entries are between 0 and 31 for every index. -/
lemma daysPerMonth_bounds (m : Nat) : 0 ≤ daysPerMonth m ∧ daysPerMonth m ≤ 31 := by
  obtain _|_|_|_|_|_|_|_|_|_|_|_|m := m <;> simp [daysPerMonth]

/-- Month lengths are between 0 and 31 for every index. -/
lemma MONTH_DAYS_bounds (m : Nat) (y : Int) : 0 ≤ MONTH_DAYS m y ∧ MONTH_DAYS m y ≤ 31 := by
  unfold MONTH_DAYS
  split_ifs with h1 h2
  · subst h1; norm_num [daysPerMonth]
  · subst h1; norm_num [daysPerMonth]
  · exact daysPerMonth_bounds m

/-- Sums of year lengths are non-negative. -/
lemma sumYears_nonneg (c : Int) (n : Nat) : 0 ≤ sumYears c n := by
  induction n generalizing c with
  | zero => simp [sumYears]
  | succ n ih =>
    have h1 := SECS_IN_YEAR_pos c
    have h2 := ih (c + 1)
    simp only [sumYears]
    omega

/-- Splitting the last year off a span of years. -/
lemma sumYears_succ_last (c : Int) (n : Nat) :
    sumYears c (n + 1) = sumYears c n + SECS_IN_YEAR (c + n) := by
  induction n generalizing c with
  | zero => simp [sumYears]
  | succ n ih =>
    have hc : (c + 1) + (n : Int) = c + ((n : Int) + 1) := by ring
    calc sumYears c (n + 1 + 1) = SECS_IN_YEAR c + sumYears (c + 1) (n + 1) := rfl
      _ = SECS_IN_YEAR c + (sumYears (c + 1) n + SECS_IN_YEAR ((c + 1) + (n : Int))) := by
            rw [ih (c + 1)]
      _ = (SECS_IN_YEAR c + sumYears (c + 1) n) + SECS_IN_YEAR (c + ((n : Int) + 1)) := by
            rw [hc]; ring
      _ = sumYears c (n + 1) + SECS_IN_YEAR (c + ((n : Int) + 1)) := rfl
      _ = sumYears c (n + 1) + SECS_IN_YEAR (c + ((n + 1 : Nat) : Int)) := by push_cast; ring_nf

/-- Sums of year lengths are whole numbers of days. -/
lemma sumYears_dvd (c : Int) (n : Nat) : (86400 : Int) ∣ sumYears c n := by
  induction n generalizing c with
  | zero => simp [sumYears]
  | succ n ih =>
    simp only [sumYears]
    exact dvd_add ⟨DAYS_IN_YEAR c, by rw [SECS_IN_YEAR_eq]; ring⟩ (ih (c + 1))

/-- Sums of month lengths are non-negative. -/
lemma sumMonthsFrom_nonneg (y : Int) (j k : Nat) : 0 ≤ sumMonthsFrom y j k := by
  induction k generalizing j with
  | zero => simp [sumMonthsFrom]
  | succ k ih =>
    have h1 := (MONTH_DAYS_bounds j y).1
    have h2 := ih (j + 1)
    simp only [sumMonthsFrom]
    omega

/-- Concatenating two spans of months. -/
lemma sumMonthsFrom_append (y : Int) (a : Nat) :
    ∀ (j b : Nat), sumMonthsFrom y j (a + b) = sumMonthsFrom y j a + sumMonthsFrom y (j + a) b := by
  induction a with
  | zero => intro j b; simp [sumMonthsFrom]
  | succ a ih =>
    intro j b
    rw [Nat.succ_add]
    simp only [sumMonthsFrom]
    rw [ih (j + 1) b, show (j + 1) + a = j + (a + 1) from by omega]
    ring

/-- The twelve months of a year sum to the days of the year. -/
lemma sumMonthsFrom_total (y : Int) : sumMonthsFrom y 0 12 = DAYS_IN_YEAR y := by
  rcases hL : IS_LEAP_YEAR y <;>
    simp [sumMonthsFrom, MONTH_DAYS, daysPerMonth, DAYS_IN_YEAR, hL]

/-- The forward year loop of toDate recovers the year and the in-year
remainder from a sum of whole years plus a remainder inside the target
year. -/
lemma toDatePosLoop_eval (n : Nat) :
    ∀ (c r : Int), 0 ≤ r → r < SECS_IN_YEAR (c + n) →
      toDatePosLoop (sumYears c n + r) c = (c + n, r) := by
  induction n with
  | zero =>
    intro c r h1 h2
    simp only [Nat.cast_zero, add_zero] at h2 ⊢
    rw [toDatePosLoop, dif_neg]
    · simp [sumYears]
    · simp only [sumYears]
      omega
  | succ n ih =>
    intro c r h1 h2
    have hnn := sumYears_nonneg (c + 1) n
    rw [toDatePosLoop, dif_pos (by simp only [sumYears]; omega)]
    have harg : sumYears c (n + 1) + r - SECS_IN_YEAR c = sumYears (c + 1) n + r := by
      simp only [sumYears]; ring
    rw [harg]
    have h2' : r < SECS_IN_YEAR ((c + 1) + (n : Int)) := by
      have e : (c + 1) + (n : Int) = c + ((n + 1 : Nat) : Int) := by push_cast; ring
      rw [e]; exact h2
    rw [ih (c + 1) r h1 h2']
    have e2 : (c + 1) + (n : Int) = c + ((n + 1 : Nat) : Int) := by push_cast; ring
    rw [e2]

/-- The backward year loop of toDate recovers the pre-epoch year and
leaves the negative complement of the in-year remainder. -/
lemma toDateNegLoop_eval (y r : Int) (h1 : 0 ≤ r) (h2 : r < SECS_IN_YEAR y) :
    ∀ n : Nat, toDateNegLoop (r - sumYears y (n + 1)) (y + n) = (y, r - SECS_IN_YEAR y) := by
  intro n
  induction n with
  | zero =>
    have e0 : sumYears y (0 + 1) = SECS_IN_YEAR y := by simp [sumYears]
    simp only [Nat.cast_zero, add_zero, e0]
    rw [toDateNegLoop, dif_neg (by omega)]
  | succ n ih =>
    have hlast := sumYears_succ_last y (n + 1)
    have hSy := SECS_IN_YEAR_pos y
    have hge : SECS_IN_YEAR y ≤ sumYears y (n + 1) := by
      have := sumYears_nonneg (y + 1) n
      simp only [sumYears]
      omega
    rw [toDateNegLoop, dif_pos (by rw [hlast]; omega)]
    have e1 : r - sumYears y (n + 1 + 1) + SECS_IN_YEAR (y + ((n + 1 : Nat) : Int)) =
        r - sumYears y (n + 1) := by rw [hlast]; ring
    have e2 : y + ((n + 1 : Nat) : Int) - 1 = y + (n : Int) := by push_cast; ring
    rw [e1, e2]
    exact ih

/-- The month loop of toDate recovers the 0-based month and 0-based day
from a sum of whole months plus a day offset inside the target month. -/
lemma toDateMonthLoop_eval (y : Int) (k : Nat) :
    ∀ (j : Nat) (dd : Int), j + k ≤ 11 → 0 ≤ dd → dd < MONTH_DAYS (j + k) y →
      toDateMonthLoop j (sumMonthsFrom y j k + dd) y = (j + k, dd) := by
  induction k with
  | zero =>
    intro j dd hjk h0 hlt
    simp only [Nat.add_zero] at hlt ⊢
    rw [toDateMonthLoop, dif_neg]
    · simp [sumMonthsFrom]
    · rintro ⟨hj, hle⟩
      simp only [sumMonthsFrom, zero_add] at hle
      omega
  | succ k ih =>
    intro j dd hjk h0 hlt
    have hnn := sumMonthsFrom_nonneg y (j + 1) k
    have hmd := (MONTH_DAYS_bounds j y).1
    rw [toDateMonthLoop, dif_pos ⟨by omega, by simp only [sumMonthsFrom]; omega⟩]
    have e1 : sumMonthsFrom y j (k + 1) + dd - MONTH_DAYS j y =
        sumMonthsFrom y (j + 1) k + dd := by
      simp only [sumMonthsFrom]; ring
    rw [e1]
    have hlt' : dd < MONTH_DAYS ((j + 1) + k) y := by
      rw [show (j + 1) + k = j + (k + 1) from by omega]; exact hlt
    rw [ih (j + 1) dd (by omega) h0 hlt']
    simp only [Prod.mk.injEq]
    exact ⟨by omega, trivial⟩

/-- The forward year loop of toInstant computes the seconds in the
years from `c` up to but not including `c + n`. -/
lemma toInstantYearsUp_eq (n : Nat) : ∀ c : Int, toInstantYearsUp c (c + n) = sumYears c n := by
  induction n with
  | zero =>
    intro c
    rw [toInstantYearsUp, dif_neg (by omega)]
    simp [sumYears]
  | succ n ih =>
    intro c
    rw [toInstantYearsUp, dif_pos (by omega)]
    have e : c + ((n + 1 : Nat) : Int) = (c + 1) + (n : Int) := by push_cast; ring
    rw [e, ih (c + 1)]
    simp [sumYears]

/-- The backward year loop of toInstant computes the seconds in the `n`
years ending at `c`, counted down from `c`. -/
lemma toInstantYearsDown_eq (n : Nat) :
    ∀ c : Int, toInstantYearsDown c (c - n) = sumYears (c - n + 1) n := by
  induction n with
  | zero =>
    intro c
    rw [toInstantYearsDown, dif_neg (by omega)]
    simp [sumYears]
  | succ n ih =>
    intro c
    rw [toInstantYearsDown, dif_pos (by omega)]
    have e : c - ((n + 1 : Nat) : Int) = (c - 1) - (n : Int) := by push_cast; ring
    rw [e, ih (c - 1)]
    rw [sumYears_succ_last]
    have e2 : ((c - 1) - (n : Int) + 1) + (n : Int) = c := by ring
    rw [e2]
    ring

/-- The month loop of toInstant computes 86400 times the days in the
months before the target month. -/
lemma toInstantMonths_eq (y : Int) (k : Nat) :
    ∀ j : Int, 1 ≤ j →
      toInstantMonths j (j + k) y = 86400 * sumMonthsFrom y (j - 1).toNat k := by
  induction k with
  | zero =>
    intro j hj
    rw [toInstantMonths, dif_neg (by omega)]
    simp [sumMonthsFrom]
  | succ k ih =>
    intro j hj
    rw [toInstantMonths, dif_pos (by omega)]
    have e : j + ((k + 1 : Nat) : Int) = (j + 1) + (k : Int) := by push_cast; ring
    rw [e, ih (j + 1) (by omega)]
    have e2 : ((j + 1) - 1).toNat = (j - 1).toNat + 1 := by omega
    have e3 : j.toNat - 1 = (j - 1).toNat := by omega
    rw [e2]
    simp only [sumMonthsFrom, SECS_IN_MONTH, SECS_IN_DAY, e3]
    ring

/-- Sums of month lengths grow by at most 31 days per month. -/
lemma sumMonthsFrom_ub (y : Int) (k : Nat) :
    ∀ j : Nat, sumMonthsFrom y j k ≤ 31 * k := by
  induction k with
  | zero => intro j; simp [sumMonthsFrom]
  | succ k ih =>
    intro j
    have h1 := (MONTH_DAYS_bounds j y).2
    have h2 := ih (j + 1)
    simp only [sumMonthsFrom]
    push_cast
    omega

/-- The month phase of toDate: dividing the in-year seconds by 86400
and running the month loop recovers the 0-based month and day. -/
lemma toDate_months_part (y : Int) (k : Nat) (dy tp : Int)
    (hk : k ≤ 11) (hdy : 1 ≤ dy) (hd2 : dy ≤ MONTH_DAYS k y)
    (htp1 : 0 ≤ tp) (htp2 : tp ≤ 86399) :
    toDateMonthLoop 0 (wrapU32 (86400 * (sumMonthsFrom y 0 k + (dy - 1)) + tp) / SECS_IN_DAY) y
      = (k, dy - 1) := by
  have h0 := sumMonthsFrom_nonneg y 0 k
  have hub := sumMonthsFrom_ub y k 0
  have hmd := (MONTH_DAYS_bounds k y).2
  have hml := toDateMonthLoop_eval y k 0 (dy - 1) (by omega) (by omega)
    (by simpa using (by omega : dy - 1 < MONTH_DAYS k y))
  simp only [Nat.zero_add] at hml
  unfold SECS_IN_DAY
  rw [show wrapU32 (86400 * (sumMonthsFrom y 0 k + (dy - 1)) + tp)
      = 86400 * (sumMonthsFrom y 0 k + (dy - 1)) + tp from by unfold wrapU32; omega]
  rw [show (86400 * (sumMonthsFrom y 0 k + (dy - 1)) + tp) / 86400
      = sumMonthsFrom y 0 k + (dy - 1) from by omega]
  exact hml

/-- The time-of-day conversion recovers hour, minute and second from
any seconds value congruent to the time of day mod 86400. -/
lemma toTime_decompose (s hh mi ss : Int)
    (hmod : s % 86400 = hh * 3600 + mi * 60 + ss)
    (hh1 : 0 ≤ hh) (hh2 : hh ≤ 23) (hmi1 : 0 ≤ mi) (hmi2 : mi ≤ 59)
    (hs1 : 0 ≤ ss) (hs2 : ss ≤ 59) :
    toTime s = Time.mk hh mi ss 0 := by
  unfold toTime
  dsimp only
  have e1 : (if cmod s SECS_IN_DAY < 0 then SECS_IN_DAY + cmod s SECS_IN_DAY
      else cmod s SECS_IN_DAY) = hh * 3600 + mi * 60 + ss := by
    unfold cmod SECS_IN_DAY
    split_ifs <;> omega
  rw [e1]
  simp only [Time.mk.injEq]
  unfold cmod cdiv
  split_ifs <;> refine ⟨by omega, by omega, by omega, trivial⟩

/-- Claim C1: converting a valid calendar date and time to epoch
seconds with toInstant and converting those seconds back with toDate
and toTime reproduces the original date and time exactly, for years on
both sides of the 1900 epoch. -/
theorem calendar_roundtrip (d : Date) (t : Time) (hd : ValidDate d) (ht : ValidTime t) :
    toDate (toInstant d t).sysTime = d ∧ toTime (toInstant d t).sysTime = t := by
  obtain ⟨mo, dy, y⟩ := d
  obtain ⟨hh, mi, ss, fr⟩ := t
  simp only [ValidDate, ValidTime] at hd ht
  obtain ⟨hm1, hm2, hy0, hd1, hd2⟩ := hd
  obtain ⟨hh1, hh2, hmi1, hmi2, hs1, hs2, hfr⟩ := ht
  subst hfr
  set k : Nat := (mo - 1).toNat with hk
  have hmo : mo = (k : Int) + 1 := by omega
  have hk11 : k ≤ 11 := by omega
  set timePart : Int := hh * 3600 + mi * 60 + ss with htp
  have htp1 : 0 ≤ timePart := by omega
  have htp2 : timePart ≤ 86399 := by omega
  set dayCount : Int := sumMonthsFrom y 0 k + (dy - 1) with hdc
  have hsm0 := sumMonthsFrom_nonneg y 0 k
  have hdc1 : 0 ≤ dayCount := by omega
  have htot := sumMonthsFrom_total y
  have happ := sumMonthsFrom_append y (k + 1) 0 (11 - k)
  rw [show (k + 1) + (11 - k) = 12 from by omega] at happ
  simp only [Nat.zero_add] at happ
  have hsucc : sumMonthsFrom y 0 (k + 1) = sumMonthsFrom y 0 k + MONTH_DAYS k y := by
    have h1 := sumMonthsFrom_append y k 0 1
    simpa [sumMonthsFrom] using h1
  have hsm2 := sumMonthsFrom_nonneg y (k + 1) (11 - k)
  have hDbound : sumMonthsFrom y 0 k + MONTH_DAYS k y ≤ DAYS_IN_YEAR y := by
    rw [← hsucc]
    omega
  have hdyr := DAYS_IN_YEAR_bounds y
  have hSY := SECS_IN_YEAR_eq y
  have hinb : 86400 * dayCount + timePart < SECS_IN_YEAR y := by
    rw [hSY]
    omega
  have hinb0 : 0 ≤ 86400 * dayCount + timePart := by omega
  have hms : toInstantMonths 1 mo y = 86400 * sumMonthsFrom y 0 k := by
    have h1 := toInstantMonths_eq y k 1 (by norm_num)
    rw [show ((1 : Int) - 1).toNat = 0 from rfl] at h1
    rw [show (1 : Int) + (k : Int) = mo from by omega] at h1
    exact h1
  have hacc : toInstantMonths 1 mo y + (dy - 1) * SECS_IN_DAY + hh * 3600 + mi * 60 + ss
      = 86400 * dayCount + timePart := by
    rw [hms, hdc, htp]
    unfold SECS_IN_DAY
    ring
  by_cases hpre : y < 1900
  · -- pre-epoch years
    set n : Nat := (1899 - y).toNat with hn
    have hdown : toInstantYearsDown 1899 y = sumYears (y + 1) n := by
      have h1 := toInstantYearsDown_eq n 1899
      rw [show (1899 : Int) - (n : Int) = y from by omega] at h1
      exact h1
    have hsys : (toInstant (Date.mk mo dy y) (Time.mk hh mi ss 0)).sysTime
        = (86400 * dayCount + timePart) - sumYears y (n + 1) := by
      unfold toInstant
      dsimp only
      rw [if_pos hpre, if_pos hpre, hdown, hacc]
      simp only [sumYears]
      ring
    have hyge : SECS_IN_YEAR y ≤ sumYears y (n + 1) := by
      have h1 := sumYears_nonneg (y + 1) n
      simp only [sumYears]
      omega
    have hneg : (86400 * dayCount + timePart) - sumYears y (n + 1) < 0 := by omega
    have hev := toDateNegLoop_eval y (86400 * dayCount + timePart) hinb0 hinb n
    rw [show y + (n : Int) = 1899 from by omega] at hev
    constructor
    · rw [hsys]
      unfold toDate
      dsimp only
      rw [if_pos hneg]
      rw [hev]
      rw [if_pos hneg]
      rw [show SECS_IN_YEAR y + ((86400 * dayCount + timePart) - SECS_IN_YEAR y)
          = 86400 * (sumMonthsFrom y 0 k + (dy - 1)) + timePart from by rw [hdc]; ring]
      rw [toDate_months_part y k dy timePart hk11 hd1 hd2 htp1 htp2]
      dsimp only
      simp only [Date.mk.injEq]
      refine ⟨by omega, by omega, trivial⟩
    · rw [hsys]
      obtain ⟨q, hq⟩ := sumYears_dvd y (n + 1)
      exact toTime_decompose _ hh mi ss (by omega) hh1 hh2 hmi1 hmi2 hs1 hs2
  · -- post-epoch years
    push_neg at hpre
    set n : Nat := (y - 1900).toNat with hn
    have hup : toInstantYearsUp 1900 y = sumYears 1900 n := by
      have h1 := toInstantYearsUp_eq n 1900
      rw [show (1900 : Int) + (n : Int) = y from by omega] at h1
      exact h1
    have hsY := sumYears_nonneg 1900 n
    have hsys : (toInstant (Date.mk mo dy y) (Time.mk hh mi ss 0)).sysTime
        = sumYears 1900 n + (86400 * dayCount + timePart) := by
      unfold toInstant
      dsimp only
      rw [if_neg (not_lt.mpr hpre), if_neg (not_lt.mpr hpre), hup, hacc]
    have hpos0 : ¬ (sumYears 1900 n + (86400 * dayCount + timePart) < 0) := by omega
    have hev := toDatePosLoop_eval n 1900 (86400 * dayCount + timePart) hinb0
      (by rw [show (1900 : Int) + (n : Int) = y from by omega]; exact hinb)
    constructor
    · rw [hsys]
      unfold toDate
      dsimp only
      rw [if_neg hpos0]
      rw [hev]
      rw [if_neg hpos0]
      rw [show (1900 : Int) + (n : Int) = y from by omega]
      rw [show 86400 * dayCount + timePart
          = 86400 * (sumMonthsFrom y 0 k + (dy - 1)) + timePart from by rw [hdc]]
      rw [toDate_months_part y k dy timePart hk11 hd1 hd2 htp1 htp2]
      dsimp only
      simp only [Date.mk.injEq]
      refine ⟨by omega, by omega, trivial⟩
    · rw [hsys]
      obtain ⟨q, hq⟩ := sumYears_dvd 1900 n
      exact toTime_decompose _ hh mi ss (by omega) hh1 hh2 hmi1 hmi2 hs1 hs2

/-- Witness for C1 at the documented pre-epoch example: December 31,
1899 at 23:59:59 round-trips through the seconds representation. -/
theorem calendar_roundtrip_witness :
    ValidDate (Date.mk 12 31 1899) ∧ ValidTime (Time.mk 23 59 59 0) ∧
    toDate (toInstant (Date.mk 12 31 1899) (Time.mk 23 59 59 0)).sysTime = Date.mk 12 31 1899 ∧
    toTime (toInstant (Date.mk 12 31 1899) (Time.mk 23 59 59 0)).sysTime = Time.mk 23 59 59 0 := by
  refine ⟨?_, ?_, ?_⟩
  · unfold ValidDate
    decide
  · unfold ValidTime
    decide
  · exact calendar_roundtrip (Date.mk 12 31 1899) (Time.mk 23 59 59 0)
      (by unfold ValidDate; decide) (by unfold ValidTime; decide)

/-- Claim C8 (code-bug evidence): the three-argument Time constructor
passes hour 24 through unchanged, because it compares the hour against
59 instead of 24, and the Date constructor accepts February 30 and cuts
January 31 back to day 28, because its day clamp indexes the 0-based
month table with the 1-based month (February 2001 has 28 days and
January has 31, contradicting the claimed clamp into the valid
ranges). -/
theorem construction_clamp_bug :
    (mkTime3 24 0 0).hour = 24 ∧
    (mkDate 2 30 2001).day = 30 ∧ MONTH_DAYS (2 - 1) 2001 = 28 ∧
    (mkDate 1 31 1900).day = 28 ∧ MONTH_DAYS (1 - 1) 1900 = 31 := by
  refine ⟨rfl, ?_, ?_, ?_, ?_⟩ <;> decide

end lsc
